import Mathlib

/-!
# OpenStructure: map codec descriptors, the GUI file loader, the map tool
and the Python bindings of `gfx::Entity`

A shallow embedding of

* `modules/gui/src/file_loader.cc` (`ost::gui::FileLoader`),
* `modules/gui/src/tools/map_tool.cc` (`ost::gui::MapTool`),
* `modules/gfx/pymod/export_entity.cc` (the render-options properties that
  `export_Entity` registers), and
* `modules/io/src/img/map_io_mrc_handler.hh` (`ost::io::MRC`, `ost::io::CCP4`,
  `ost::io::MapIOMrcHandler`).

Stateful C++ code is written as explicit state passing over a `World`; C++
exceptions are `Except` values returned next to the state the call leaves
behind. Collaborators whose code lives elsewhere (`io::LoadMap`,
`gfx::Scene`, `QFileInfo`, the user answering a dialog) are fields of `Env`.
-/

namespace ost

/-- The test `s.endsWith(suffix, Qt::CaseInsensitive)` of `QString`: whether
`s` ends in `suffix` once the case of letters is ignored. Case is folded with
`Char.toLower`, which folds the letters `A`..`Z`; the suffixes the code tests
(`.py`, `.pdb`, `.ent`, `.pdb.gz`, `.ent.gz`) hold no letter that a character
outside ASCII folds to. -/
def endsWithCI (s suffix : String) : Bool :=
  (suffix.toList.map Char.toLower).isSuffixOf (s.toList.map Char.toLower)

namespace io

/-! ## `map_io_mrc_handler.hh`: the format descriptors `MRC` and `CCP4` -/

/-- Modelled from the spec: the enum `Subformat`, whose declaration is not in
`map_io_mrc_handler.hh`. The spec (§3) gives "a closed variant set (e.g.,
auto-detect, legacy-MRC, modern-MRC, CCP4)"; `MRC_AUTO_FORMAT` is the name the
header uses for auto-detect. -/
inductive Subformat where
  | MRC_AUTO_FORMAT
  | legacyMRC
  | modernMRC
  | ccp4
deriving DecidableEq, Repr

/-- Modelled from the spec: the enum `Endianess`, whose declaration is not in
`map_io_mrc_handler.hh`. The spec (§3) gives "{big, little, host-local}";
`OST_LOCAL_ENDIAN` is the name the header uses for host-local. -/
inductive Endianess where
  | big
  | little
  | OST_LOCAL_ENDIAN
deriving DecidableEq, Repr

/-- The private members of `class MRC`. -/
structure MRC where
  subformat_ : Subformat
  normalize_on_save_ : Bool
  endianess_on_save_ : Endianess
deriving DecidableEq, Repr

/-- Modelled from the spec: the body of the constructor `MRC::MRC`, which is in
`map_io_mrc_handler.cc`. The parameters, their order and their defaults are
those of the declaration; the spec (§3, §4.6) has the descriptor bundle exactly
the configuration it is constructed with, so each argument is stored in the
member of its name. -/
def MRC.new (normalize_on_save : Bool := false)
    (subformat : Subformat := Subformat.MRC_AUTO_FORMAT)
    (endianness_on_save : Endianess := Endianess.OST_LOCAL_ENDIAN) : MRC :=
  { subformat_ := subformat
    normalize_on_save_ := normalize_on_save
    endianess_on_save_ := endianness_on_save }

/-- Modelled from the spec: the body of `MRC::GetEndianessOnSave`, which is in
`map_io_mrc_handler.cc`; it reports the endianness-on-save setting. -/
def MRC.GetEndianessOnSave (d : MRC) : Endianess := d.endianess_on_save_

/-- Modelled from the spec: the body of `MRC::SetEndianessOnSave`, which is in
`map_io_mrc_handler.cc`; it replaces the endianness-on-save setting. -/
def MRC.SetEndianessOnSave (d : MRC) (e : Endianess) : MRC :=
  { d with endianess_on_save_ := e }

/-- Modelled from the spec: the body of `MRC::GetNormalizeOnSave`, which is in
`map_io_mrc_handler.cc`; it reports the normalize-on-save flag. -/
def MRC.GetNormalizeOnSave (d : MRC) : Bool := d.normalize_on_save_

/-- Modelled from the spec: the body of `MRC::SetNormalizeOnSave`, which is in
`map_io_mrc_handler.cc`; it replaces the normalize-on-save flag. -/
def MRC.SetNormalizeOnSave (d : MRC) (normalize_on_save : Bool) : MRC :=
  { d with normalize_on_save_ := normalize_on_save }

/-- Modelled from the spec: the body of `MRC::GetSubformat`, which is in
`map_io_mrc_handler.cc`; it reports the subformat setting. -/
def MRC.GetSubformat (d : MRC) : Subformat := d.subformat_

/-- Modelled from the spec: the body of `MRC::SetSubformat`, which is in
`map_io_mrc_handler.cc`; it replaces the subformat setting. -/
def MRC.SetSubformat (d : MRC) (subformat : Subformat) : MRC :=
  { d with subformat_ := subformat }

/-- Modelled from the spec: the body of the constructor `CCP4::CCP4`, which is
in `map_io_mrc_handler.cc`. `CCP4` derives from `MRC` and adds no member; the
parameters and defaults are those of the declaration. The subformat it hands to
the `MRC` constructor is in neither the header nor the spec, so it is the
parameter `base_subformat`. -/
def CCP4.new (base_subformat : Subformat) (normalize_on_save : Bool := false)
    (endianness_on_save : Endianess := Endianess.OST_LOCAL_ENDIAN) : MRC :=
  MRC.new normalize_on_save base_subformat endianness_on_save

/-! ## `map_io_mrc_handler.hh`: the handler `MapIOMrcHandler` -/

/-- A `char` or `unsigned char`: one byte. -/
abbrev Byte := Fin 256

/-- The C array type `char[256]`: 256 bytes, neither more nor fewer. -/
structure CharArray256 where
  bytes : List Byte
  size_eq : bytes.length = 256

/-- The data members of `class MapIOMrcHandler`. `UnitCell` (from
`ost/unit_cell.hh`) and `img::Size` are declared elsewhere and stay type
parameters. -/
structure MapIOMrcHandler (UnitCell Size : Type) where
  is_file_ : Bool
  filename_ : String
  header_ : CharArray256
  unit_cell_ : UnitCell
  unit_cell_size_ : Size

/-- The constructor `MapIOMrcHandler()`: it sets `is_file_(false)` and
`filename_("")`. The array `header_` is not initialised, and `unit_cell_` and
`unit_cell_size_` get the default values of their classes; those three are
arguments here. -/
def MapIOMrcHandler.new {UnitCell Size : Type} (header_ : CharArray256)
    (unit_cell_ : UnitCell) (unit_cell_size_ : Size) : MapIOMrcHandler UnitCell Size :=
  { is_file_ := false
    filename_ := ""
    header_ := header_
    unit_cell_ := unit_cell_
    unit_cell_size_ := unit_cell_size_ }

/-- The static `MapIOMrcHandler::GetFormatName`. -/
def MapIOMrcHandler.GetFormatName : String := "Mrc"

/-- The static `MapIOMrcHandler::GetFormatDescription`. -/
def MapIOMrcHandler.GetFormatDescription : String :=
  "Format used by the MRC software package"

/-- The accessor `MapIOMrcHandler::GetUnitCellSize`. -/
def MapIOMrcHandler.GetUnitCellSize {UnitCell Size : Type}
    (h : MapIOMrcHandler UnitCell Size) : Size := h.unit_cell_size_

/-- The accessor `MapIOMrcHandler::GetUnitCell`. -/
def MapIOMrcHandler.GetUnitCell {UnitCell Size : Type}
    (h : MapIOMrcHandler UnitCell Size) : UnitCell := h.unit_cell_

/-- An array of 256 zero bytes. -/
def zeroHeader : CharArray256 :=
  { bytes := List.replicate 256 0
    size_eq := List.length_replicate 256 0 }

/-! ## The on-disk layout, the endianness resolver and the format registry

The bodies of `Import`, `Export`, `MatchContent`, `MatchSuffix` and of the
registry are in files that are not part of this development
(`map_io_mrc_handler.cc`, the IO manager); what follows is written from the
specification's words. -/

/-- Modelled from the spec: the binary layout `Import` reads and `Export`
writes, whose code is in `map_io_mrc_handler.cc`. The spec (§6) gives "fixed
256-byte header record followed by an optional extended header of declared
length, followed by the raw voxel payload". -/
def fileLayout (header : CharArray256) (extended payload : List Byte) : List Byte :=
  header.bytes ++ extended ++ payload

/-- Modelled from the spec: where the voxel data block of a file starts, which
is decided in `map_io_mrc_handler.cc`. The spec (§3) gives "the data block
begins immediately after header + extended-header bytes"; the argument is the
extended-header size the header declares. -/
def dataBlock (extended_size : Nat) (file : List Byte) : List Byte :=
  file.drop (256 + extended_size)

/-- Modelled from the spec: the error taxonomy of §7; the codec raises its
failures in `map_io_mrc_handler.cc`. -/
inductive CodecError where
  | MalformedHeader
  | AmbiguousEndianness
  | UnrecognizedFormat
  | UnsupportedSubformat
  | TruncatedPayload
  | DataIntegrityError
deriving DecidableEq, Repr

/-- Modelled from the spec: "the known big-endian and little-endian bit
patterns" of the stamp field (§4.2). Their values are in
`map_io_mrc_handler.cc`, not in the spec, so they are left open. -/
structure StampPatterns where
  big : List Byte
  little : List Byte
deriving DecidableEq, Repr

/-- Modelled from the spec: the endianness resolution `Import` performs, whose
code is in `map_io_mrc_handler.cc`. The spec (§4.2) gives: "inspect the
stamp/magic field; compare against the known big-endian and little-endian bit
patterns for that field; if exactly one matches, select that order; if both or
neither match, and no explicit override was supplied, fail with
`AmbiguousEndianness`; an explicit override always wins over sniffing". -/
def resolveEndianness (patterns : StampPatterns) (stamp : List Byte)
    (override : Option Endianess) : Except CodecError Endianess :=
  match override with
  | some e => .ok e
  | none =>
    match decide (stamp = patterns.big), decide (stamp = patterns.little) with
    | true, false => .ok .big
    | false, true => .ok .little
    | _, _ => .error .AmbiguousEndianness

/-- Modelled from the spec: one entry of the format registry (§4.6), the
static predicates a codec registers. `MapIOMrcHandler` declares `MatchContent`,
`MatchSuffix`, `MatchType` and `GetFormatName`; their bodies and the factory
template are not in the header. `MatchType` and the factory play no part in
`Resolve` and are left out. -/
structure Codec where
  GetFormatName : String
  MatchContent : List Byte → Bool
  MatchSuffix : String → Bool

/-- Modelled from the spec: `FormatRegistry.Resolve` (§4.6), whose code is in
the IO manager. The spec gives an "ordered list" of entries and: "first try
`MatchContent` against the sniff bytes (more reliable, since extensions lie);
if no content matcher claims ownership, fall back to `MatchSuffix` on the
path; fails with `UnrecognizedFormat` if nothing matches". The spec has no rule
for a pass in which several entries accept; the list being ordered, the entry
met first is taken, and no property below rests on that choice. -/
def Resolve (registry : List Codec) (path : String) (sniff : List Byte) :
    Except CodecError Codec :=
  match registry.find? (fun c => c.MatchContent sniff) with
  | some c => .ok c
  | none =>
    match registry.find? (fun c => c.MatchSuffix path) with
    | some c => .ok c
    | none => .error .UnrecognizedFormat

end io

namespace gfx

/-! ## `gfx/pymod/export_entity.cc`: the render-options properties of `Entity` -/

/-- The values of `RenderMode::Type` that `export_entity.cc` names. -/
inductive RenderMode where
  | SLINE
  | LINE_TRACE
  | SIMPLE
  | CUSTOM
  | TUBE
  | HSC
  | CPK
deriving DecidableEq, Repr

/-- A `RenderOptionsPtr`: the options object it points to, told apart by a
number, or `none` for the empty pointer. -/
abbrev RenderOptionsPtr := Option Nat

/-- A `gfx::Entity` as the accessors see it: the method `GetOptions`. -/
structure Entity where
  GetOptions : RenderMode → RenderOptionsPtr

/-- The accessor `ent_sline_opts`. -/
def ent_sline_opts (ent : Entity) : RenderOptionsPtr := ent.GetOptions .SLINE

/-- The accessor `ent_trace_opts`. -/
def ent_trace_opts (ent : Entity) : RenderOptionsPtr := ent.GetOptions .LINE_TRACE

/-- The accessor `ent_simple_opts`. -/
def ent_simple_opts (ent : Entity) : RenderOptionsPtr := ent.GetOptions .SIMPLE

/-- The accessor `ent_custom_opts`. -/
def ent_custom_opts (ent : Entity) : RenderOptionsPtr := ent.GetOptions .CUSTOM

/-- The accessor `ent_tube_opts`. -/
def ent_tube_opts (ent : Entity) : RenderOptionsPtr := ent.GetOptions .TUBE

/-- The accessor `ent_hsc_opts`. -/
def ent_hsc_opts (ent : Entity) : RenderOptionsPtr := ent.GetOptions .HSC

/-- The accessor `ent_cpk_opts`. -/
def ent_cpk_opts (ent : Entity) : RenderOptionsPtr := ent.GetOptions .CPK

/-- The seven `.add_property("..._options", &...)` calls of `export_Entity`, in
the order of the file: the Python name and the accessor registered under it. -/
def export_Entity_options : List (String × (Entity → RenderOptionsPtr)) :=
  [ ("sline_options", ent_sline_opts)
  , ("simple_options", ent_simple_opts)
  , ("tube_options", ent_sline_opts)
  , ("custom_options", ent_custom_opts)
  , ("cartoon_options", ent_hsc_opts)
  , ("cpk_options", ent_cpk_opts)
  , ("trace_options", ent_trace_opts) ]

/-- Reading the Python attribute `name` of an entity: the accessor registered
under that name (the last one, were a name registered twice) applied to the
entity; `none` when no render-options property has the name. -/
def getProperty (name : String) (ent : Entity) : Option RenderOptionsPtr :=
  (export_Entity_options.reverse.find? (fun entry => entry.1 == name)).map
    (fun entry => entry.2 ent)

/-- The render mode the name of a render-options property denotes. -/
def denotedMode : String → Option RenderMode
  | "sline_options" => some .SLINE
  | "simple_options" => some .SIMPLE
  | "tube_options" => some .TUBE
  | "custom_options" => some .CUSTOM
  | "cartoon_options" => some .HSC
  | "cpk_options" => some .CPK
  | "trace_options" => some .LINE_TRACE
  | _ => none

/-- An entity whose options objects are all different: mode number `k` (in the
order of `RenderMode`) has options object `k`. -/
def sampleEntity : Entity :=
  { GetOptions := fun
      | .SLINE => some 0
      | .LINE_TRACE => some 1
      | .SIMPLE => some 2
      | .CUSTOM => some 3
      | .TUBE => some 4
      | .HSC => some 5
      | .CPK => some 6 }

end gfx

namespace gui

/-! ## Collaborator types of `file_loader.cc` -/

/-- The exception `io::IOException`, identified by its message. -/
structure IOException where
  what : String
deriving DecidableEq, Repr

/-- The exception `ost::Message` thrown by `gfx::Scene::Add`; `_mesg` is the
field `HandleError` and `LoadPDB` read. -/
structure Message where
  _mesg : String
deriving DecidableEq, Repr

/-- A `mol::EntityHandle`; the loader only passes it on. -/
structure EntityHandle where
  ident : Nat
deriving DecidableEq, Repr

/-- A `mol::SurfaceHandle`; `attached` records `surf.Attach(ent, 5.0)`. -/
structure SurfaceHandle where
  ident : Nat
  attached : Option EntityHandle
deriving DecidableEq, Repr

/-- An `img::ImageHandle`; `depth` is `GetExtent().GetSize().GetDepth()`. -/
structure ImageHandle where
  ident : Nat
  depth : Nat
deriving DecidableEq, Repr

/-- The iso level of a `gfx::MapIso`: the constructor argument `0.0`, or the
value `SetLevel(GetMean())` leaves. -/
inductive IsoLevel where
  | zero
  | mean
deriving DecidableEq, Repr

/-- The graphical objects `FileLoader` creates (`new gfx::Entity`,
`new gfx::MapIso`, `new gfx::Surface`). -/
inductive GfxObj where
  | Entity (name : String) (ent : EntityHandle)
  | MapIso (name : String) (map : ImageHandle) (level : IsoLevel)
  | Surface (name : String) (surf : SurfaceHandle)
deriving DecidableEq, Repr

/-- The name of a graphical object, `obj->GetName()`. -/
def GfxObj.GetName : GfxObj → String
  | .Entity name _ => name
  | .MapIso name _ _ => name
  | .Surface name _ => name

/-- A `gfx::GfxObjP`: a shared pointer, `none` when empty (`!obj`). -/
abbrev GfxObjP := Option GfxObj

/-- The buttons of `QMessageBox` used in the file. -/
inductive StandardButton where
  | Ok
  | Yes
  | Cancel
deriving DecidableEq, Repr

/-- A `QMessageBox` as the file builds it: always `QMessageBox::Warning`, with
a title, a text, the standard buttons, and the text `setButtonText` gives the
`Yes` button. -/
structure MessageBox where
  title : String
  text : String
  buttons : List StandardButton
  yesText : Option String
deriving DecidableEq, Repr

/-- The collaborators of `FileLoader` whose code is outside the file. -/
structure Env where
  /-- The build flag `OST_IMG_ENABLED`. -/
  OST_IMG_ENABLED : Bool
  /-- The call `io::LoadEntity(name)`. -/
  LoadEntity : String → Except IOException EntityHandle
  /-- The call `io::LoadMap(name)`. -/
  LoadMap : String → Except IOException ImageHandle
  /-- The call `io::LoadSurface(name, type)`. -/
  LoadSurface : String → String → Except IOException SurfaceHandle
  /-- The value `QFileInfo(f).baseName()`. -/
  baseName : String → String
  /-- The value `QFileInfo(f).completeBaseName()`. -/
  completeBaseName : String → String
  /-- The value `QFileInfo(f).absolutePath()`. -/
  absolutePath : String → String
  /-- The value `QFileInfo(f).fileName()`. -/
  fileName : String → String
  /-- The value `QDir::separator()`. -/
  separator : String
  /-- The call `gfx::Scene::Instance().Add(obj)` on the root node's children;
  it may throw a `Message`. -/
  SceneAdd : List GfxObj → GfxObj → Except Message (List GfxObj)
  /-- The call `gfx::Scene::Instance().Remove(name)`. -/
  SceneRemove : List GfxObj → String → List GfxObj
  /-- The button the user presses when `messageBox.exec()` shows a box. -/
  exec : MessageBox → StandardButton
  /-- The entities `io::PDBReader` yields while `HasNext()` holds, in reading
  order; a reader that throws is not modelled. -/
  pdbEntities : String → List EntityHandle
  /-- The effect of `Conopology::ConnectAll(builder, ent, 0)` on an entity. -/
  ConnectAll : EntityHandle → EntityHandle

/-- The state `FileLoader` reads and writes: the scene's root children, the
object the scene was last centred on, the static list `loaded_images_`, the
data viewers added to the main area, the message boxes shown so far and the
commands sent to the Python interpreter. -/
structure World where
  scene : List GfxObj
  center : Option GfxObj
  loaded_images_ : List ImageHandle
  widgets : List (String × ImageHandle)
  messageBoxes : List MessageBox
  commands : List String
deriving DecidableEq, Repr

/-! ## `FileLoader` -/

/-- `FileLoader::TryLoadEntity`: an entity object named after the file's base
name, or the empty pointer when `io::LoadEntity` throws `io::IOException`. -/
def TryLoadEntity (env : Env) (filename : String) : GfxObjP :=
  match env.LoadEntity filename with
  | .ok ent => some (.Entity (env.baseName filename) ent)
  | .error _ => none

/-- `FileLoader::TryLoadMap`. There is no `try` in the body, so an exception of
`io::LoadMap` leaves through the caller; the returned state is the one the call
leaves behind either way. -/
def TryLoadMap (env : Env) (filename : String) (w : World) :
    Except IOException GfxObjP × World :=
  if env.OST_IMG_ENABLED then
    match env.LoadMap filename with
    | .error e => (.error e, w)
    | .ok map =>
      if map.depth > 1 then
        (.ok (some (.MapIso (env.baseName filename) map .mean)), w)
      else if map.depth = 1 then
        let images := w.loaded_images_ ++ [map]
        (.ok none,
          { w with
            loaded_images_ := images
            widgets := w.widgets ++ [(filename, images.getLast (by simp [images]))] })
      else
        (.ok none, w)
  else
    (.error ⟨"No IPLT Available"⟩, w)

/-- `FileLoader::TryLoadSurface`: loads `<path>.pdb` and the msms surface
`<path>`, attaches the entity, and returns the surface object; the empty
pointer when either load throws `io::IOException`. -/
def TryLoadSurface (env : Env) (filename : String) : GfxObjP :=
  let path := env.absolutePath filename ++ env.separator ++ env.completeBaseName filename
  match env.LoadEntity (path ++ ".pdb") with
  | .error _ => none
  | .ok ent =>
    match env.LoadSurface path "msms" with
    | .error _ => none
    | .ok surf => some (.Surface (env.baseName filename) { surf with attached := some ent })

/-- The box `FileLoader::HandleError` shows. -/
def handleErrorBox (m : Message) : MessageBox :=
  { title := "Error while adding Node to Scene"
    text := m._mesg
    buttons := [.Yes, .Cancel]
    yesText := some "Reload" }

/-- `FileLoader::HandleError`: shows the box; on `Yes` removes the node of that
name and adds the object again, and that second `Add` is not guarded. -/
def HandleError (env : Env) (m : Message) (obj : GfxObj) (w : World) :
    Except Message Unit × World :=
  let box := handleErrorBox m
  let w1 := { w with messageBoxes := w.messageBoxes ++ [box] }
  match env.exec box with
  | .Yes =>
    let removed := env.SceneRemove w1.scene obj.GetName
    match env.SceneAdd removed obj with
    | .ok scene => (.ok (), { w1 with scene := scene })
    | .error m2 => (.error m2, { w1 with scene := removed })
  | _ => (.ok (), w1)

/-- The statement `if (GetRootNode()->GetChildCount()==1) SetCenter(obj->GetCenter())`. -/
def centerIfOnly (obj : GfxObj) (w : World) : World :=
  if w.scene.length = 1 then { w with center := some obj } else w

/-- The tail shared by `LoadObject` and the one-entity branch of `LoadPDB`:
`try { Add(obj) } catch (Message m) { HandleError(m, obj) }` and the centring
statement after it. -/
def addToScene (env : Env) (obj : GfxObj) (w : World) : Except Message Unit × World :=
  match env.SceneAdd w.scene obj with
  | .ok scene => (.ok (), centerIfOnly obj { w with scene := scene })
  | .error m =>
    match HandleError env m obj w with
    | (.ok (), w1) => (.ok (), centerIfOnly obj w1)
    | (.error m2, w1) => (.error m2, w1)

/-- `FileLoader::RunScript`: the four commands sent to the interpreter. -/
def RunScript (env : Env) (filename : String) (w : World) : World :=
  { w with
    commands := w.commands ++
      [ "_dir=os.getcwd()"
      , "os.chdir('" ++ env.absolutePath filename ++ "')"
      , "execfile('" ++ env.fileName filename ++ "')"
      , "os.chdir(_dir)" ] }

/-- The box `LoadPDB` shows when adding one of several entities throws. -/
def addNodesErrorBox (m : Message) : MessageBox :=
  { title := "Error while adding Nodes to Scene"
    text := m._mesg
    buttons := [.Ok]
    yesText := none }

/-- The loop `for (i = start; i < entities.size(); i++) Add(Entity(base (i), entities[i]))`
of `LoadPDB`, run over the entities still to add; it stops at the first `Add`
that throws. -/
def addNumbered (env : Env) (base : String) :
    Nat → List EntityHandle → List GfxObj → Except Message Unit × List GfxObj
  | _, [], scene => (.ok (), scene)
  | i, ent :: rest, scene =>
    match env.SceneAdd scene (.Entity (base ++ " (" ++ toString i ++ ")") ent) with
    | .ok scene2 => addNumbered env base (i + 1) rest scene2
    | .error m => (.error m, scene)

/-- `FileLoader::LoadPDB`. -/
def LoadPDB (env : Env) (filename : String) (w : World) : Except Message Unit × World :=
  let entities := (env.pdbEntities filename).map env.ConnectAll
  match entities with
  | [ent] => addToScene env (.Entity (env.baseName filename) ent) w
  | _ =>
    match addNumbered env (env.baseName filename) 0 entities w.scene with
    | (.ok (), scene) => (.ok (), { w with scene := scene })
    | (.error m, scene) =>
      (.ok (), { w with scene := scene, messageBoxes := w.messageBoxes ++ [addNodesErrorBox m] })

/-- The box `LoadObject` shows when no loader produced an object. -/
def noHandlerBox : MessageBox :=
  { title := "Error while Loading Entity"
    text := "Could not Open file. No suitable io handler found!"
    buttons := [.Ok]
    yesText := none }

/-- The last two steps of the generic branch of `LoadObject`, entered with the
object found so far: the warning and `return` when it is empty, otherwise the
guarded `Add` and the centring. -/
def finishLoad (env : Env) (obj : GfxObjP) (w : World) : Except Message Unit × World :=
  match obj with
  | none => (.ok (), { w with messageBoxes := w.messageBoxes ++ [noHandlerBox] })
  | some o => addToScene env o w

/-- `FileLoader::LoadObject`. -/
def LoadObject (env : Env) (file_name : String) (w : World) : Except Message Unit × World :=
  if endsWithCI file_name ".py" then
    (.ok (), RunScript env file_name w)
  else if endsWithCI file_name ".pdb" || endsWithCI file_name ".ent" ||
      endsWithCI file_name ".pdb.gz" || endsWithCI file_name ".ent.gz" then
    LoadPDB env file_name w
  else
    match TryLoadEntity env file_name with
    | some o => finishLoad env (some o) w
    | none =>
      match TryLoadMap env file_name w with
      | (.ok (some o), w1) => finishLoad env (some o) w1
      | (.ok none, w1) => (.ok (), w1)
      | (.error _, w1) => finishLoad env (TryLoadSurface env file_name) w1

/-- The message boxes shown between the state `w` and the later state `after`. -/
def shownBy (w after : World) : List MessageBox :=
  after.messageBoxes.drop w.messageBoxes.length

/-- A sample set of collaborators: `vol.mrc` is a volume of depth 4, `img.mrc`
an image of depth 1, every other map fails to load; only `model.sdf` loads as
an entity; no surface loads; `Scene::Add` always succeeds. -/
def sampleEnv : Env :=
  { OST_IMG_ENABLED := true
    LoadEntity := fun f =>
      if f = "model.sdf" then .ok ⟨7⟩ else .error ⟨"no entity handler"⟩
    LoadMap := fun f =>
      if f = "vol.mrc" then .ok ⟨1, 4⟩
      else if f = "img.mrc" then .ok ⟨2, 1⟩
      else .error ⟨"truncated payload"⟩
    LoadSurface := fun _ _ => .error ⟨"no surface"⟩
    baseName := fun f => (f.splitOn ".").headD ""
    completeBaseName := fun f => (f.splitOn ".").headD ""
    absolutePath := fun _ => "/data"
    fileName := fun f => f
    separator := "/"
    SceneAdd := fun scene obj => .ok (scene ++ [obj])
    SceneRemove := fun scene name => scene.filter (fun o => o.GetName != name)
    exec := fun _ => .Cancel
    pdbEntities := fun _ => []
    ConnectAll := fun e => e }

/-- A state in which nothing has been loaded or shown. -/
def emptyWorld : World :=
  { scene := []
    center := none
    loaded_images_ := []
    widgets := []
    messageBoxes := []
    commands := [] }

/-- The functions of `FileLoader` that `LoadObject` calls. -/
inductive Call where
  | RunScript
  | LoadPDB
  | TryLoadEntity
  | TryLoadMap
  | TryLoadSurface
deriving DecidableEq, Repr

/-- `FileLoader::RunScript`, entering itself in the log of calls. -/
def RunScriptLogged (env : Env) (filename : String) (w : World) (log : List Call) :
    World × List Call :=
  (RunScript env filename w, log ++ [.RunScript])

/-- `FileLoader::LoadPDB`, entering itself in the log of calls. -/
def LoadPDBLogged (env : Env) (filename : String) (w : World) (log : List Call) :
    (Except Message Unit × World) × List Call :=
  (LoadPDB env filename w, log ++ [.LoadPDB])

/-- `FileLoader::TryLoadEntity`, entering itself in the log of calls. -/
def TryLoadEntityLogged (env : Env) (filename : String) (log : List Call) :
    GfxObjP × List Call :=
  (TryLoadEntity env filename, log ++ [.TryLoadEntity])

/-- `FileLoader::TryLoadMap`, entering itself in the log of calls. -/
def TryLoadMapLogged (env : Env) (filename : String) (w : World) (log : List Call) :
    (Except IOException GfxObjP × World) × List Call :=
  (TryLoadMap env filename w, log ++ [.TryLoadMap])

/-- `FileLoader::TryLoadSurface`, entering itself in the log of calls. -/
def TryLoadSurfaceLogged (env : Env) (filename : String) (log : List Call) :
    GfxObjP × List Call :=
  (TryLoadSurface env filename, log ++ [.TryLoadSurface])

/-- `FileLoader::LoadObject` once more, with every call to `RunScript`,
`LoadPDB`, `TryLoadEntity`, `TryLoadMap` and `TryLoadSurface` made through the
logging version of the callee: next to its result it returns the log, which
starts empty and which only the callees write. -/
def LoadObjectTraced (env : Env) (file_name : String) (w : World) :
    (Except Message Unit × World) × List Call :=
  if endsWithCI file_name ".py" then
    let script := RunScriptLogged env file_name w []
    ((.ok (), script.1), script.2)
  else if endsWithCI file_name ".pdb" || endsWithCI file_name ".ent" ||
      endsWithCI file_name ".pdb.gz" || endsWithCI file_name ".ent.gz" then
    LoadPDBLogged env file_name w []
  else
    let entity := TryLoadEntityLogged env file_name []
    match entity.1 with
    | some o => (finishLoad env (some o) w, entity.2)
    | none =>
      let map := TryLoadMapLogged env file_name w entity.2
      match map.1 with
      | (.ok (some o), w1) => (finishLoad env (some o) w1, map.2)
      | (.ok none, w1) => ((.ok (), w1), map.2)
      | (.error _, w1) =>
        let surface := TryLoadSurfaceLogged env file_name map.2
        (finishLoad env surface.1 w1, surface.2)

/-- The name `LoadPDB` gives entity number `i` of several:
`baseName + " (" + QString::number(i) + ")"`. -/
def numberedName (base : String) (i : Nat) : String :=
  base ++ " (" ++ toString i ++ ")"

/-- The objects the loop of `LoadPDB` creates for the entities still to add,
the first of them having number `i`. -/
def numberedEntities (base : String) : Nat → List EntityHandle → List GfxObj
  | _, [] => []
  | i, ent :: rest => .Entity (numberedName base i) ent :: numberedEntities base (i + 1) rest

/-- Calling `Scene::Add` on the objects of a list, one after the other, up to
the first call that throws. -/
def addInOrder (env : Env) : List GfxObj → List GfxObj → Except Message Unit × List GfxObj
  | [], scene => (.ok (), scene)
  | obj :: rest, scene =>
    match env.SceneAdd scene obj with
    | .ok scene2 => addInOrder env rest scene2
    | .error m => (.error m, scene)

/-- The value of a decimal digit character. -/
def digitValue (c : Char) : Nat := c.toNat - 48

/-- The number a list of decimal digit characters writes, most significant
digit first. -/
def decimalValue (digits : List Char) : Nat :=
  digits.foldl (fun acc c => 10 * acc + digitValue c) 0

/-! ## `tools/map_tool.cc` -/

/-- The value a 32-bit two's-complement `int` holds after a computation whose
exact result is `n`: `n` itself when it lies between -2147483648 and
2147483647, and otherwise `n` wrapped around by a multiple of 2^32. -/
def wrapInt (n : Int) : Int := (n + 2147483648) % 4294967296 - 2147483648

/-- The sum `a + b` of two `int`s, computed in `int`. -/
def addInt (a b : Int) : Int := wrapInt (a + b)

/-- The call `std::abs(a)` on an `int`; the negation is computed in `int`, so
the absolute value of -2147483648 is -2147483648. -/
def absInt (a : Int) : Int := if a < 0 then wrapInt (-a) else a

/-- An `img::Point`: three `int` coordinates, `p[0]`, `p[1]`, `p[2]`. Sums of
coordinates are computed with `addInt`. -/
structure Point where
  x : Int
  y : Int
  z : Int
deriving DecidableEq, Repr

/-- The sum of two points, `p + q`, coordinate by coordinate in `int`. -/
def Point.add (p q : Point) : Point := ⟨addInt p.x q.x, addInt p.y q.y, addInt p.z q.z⟩

/-- An `img::Extent` as `MapTool` uses it: the constructor `Extent(start, end)`
keeps the two points, which `GetStart()` and `GetEnd()` return. -/
structure Extent where
  start_ : Point
  end_ : Point
deriving DecidableEq, Repr

/-- The iso level of a map, a `float` that `MouseMove` changes in steps
proportional to the standard deviation: `wide prev dx` is
`prev + 0.01*std*dx`, `fine prev dy` is `prev + 0.001*std*dy`. The arithmetic
is kept symbolic. -/
inductive Level where
  | initial
  | wide (prev : Level) (dx : Int)
  | fine (prev : Level) (dy : Int)
deriving DecidableEq, Repr

/-- A `geom::Plane` of a map slab. `MouseMove` computes the new origin and the
new normal with floating-point and OpenGL calls; which of the two updates was
made, from which plane and with which mouse delta, is kept symbolic. -/
inductive Plane where
  | initial
  | originMoved (prev : Plane) (dx dy : Int)
  | normalRotated (prev : Plane) (dx dy : Int)
deriving DecidableEq, Repr

/-- The state of a `gfx::MapIso` that `MouseMove` reads and writes:
`GetVisibleExtent`/`SetVisibleExtent` and `GetLevel`/`SetLevel`. -/
structure MapIso where
  visible_extent : Extent
  level : Level
deriving DecidableEq, Repr

/-- The state of a `gfx::MapSlab` that `MouseMove` reads and writes:
`GetPlane`/`SetPlane`. -/
structure MapSlab where
  plane : Plane
deriving DecidableEq, Repr

/-- A scene node by its dynamic type: a `MapIso`, a `MapSlab`, or a node of
another class. -/
inductive GfxNode where
  | MapIso (mi : MapIso)
  | MapSlab (ms : MapSlab)
  | Other (name : String)
deriving DecidableEq, Repr

/-- A `gfx::GfxNodeP`: `none` is the empty pointer. -/
abbrev GfxNodeP := Option GfxNode

/-- The cast `dynamic_cast<gfx::MapIso*>(np.get())`: empty for the empty
pointer and for a node of another class. -/
def asMapIso : GfxNodeP → Option MapIso
  | some (.MapIso mi) => some mi
  | _ => none

/-- The cast `dynamic_cast<gfx::MapSlab*>(np.get())`. -/
def asMapSlab : GfxNodeP → Option MapSlab
  | some (.MapSlab ms) => some ms
  | _ => none

/-- The value of `event.GetButtons()` as `MouseMove` tests it: equal to
`MouseEvent::LeftButton`, equal to `MouseEvent::MiddleButton`, or neither. -/
inductive Buttons where
  | LeftButton
  | MiddleButton
  | Neither
deriving DecidableEq, Repr

/-- A `QPoint`. -/
structure QPoint where
  x : Int
  y : Int
deriving DecidableEq, Repr

/-- A `MouseEvent`: `GetButtons()`, `IsShiftPressed()`, `GetDelta()`,
`GetPos()` and `GetLastPos()`. -/
structure MouseEvent where
  buttons : Buttons
  shift : Bool
  delta : QPoint
  pos : QPoint
  last_pos : QPoint
deriving DecidableEq, Repr

/-- The branch of `MapTool::MouseMove` for a node that is a `MapIso`, one pass
of the loop body: the node afterwards and the status messages sent to the
scene. `unproject last pos` stands for
`img::Point(scene.UnProject(p1) - scene.UnProject(p2))`. -/
def moveMapIso (unproject : QPoint → QPoint → Point) (event : MouseEvent) (mi : MapIso) :
    MapIso × List String :=
  let left : MapIso × List String :=
    if event.buttons = .LeftButton then
      if event.shift then
        let delta := unproject event.last_pos event.pos
        let vis := mi.visible_extent
        ({ mi with visible_extent := ⟨vis.start_.add delta, vis.end_.add delta⟩ }, [""])
      else
        if absInt event.delta.x > absInt event.delta.y then
          ({ mi with level := .wide mi.level event.delta.x }, [""])
        else
          ({ mi with level := .fine mi.level event.delta.y }, [""])
    else (mi, [])
  if event.buttons = .MiddleButton then
    if event.delta.x = 0 then left
    else
      let delta : Int := if event.delta.x < 0 then -2 else 2
      let ext := left.1.visible_extent
      ({ left.1 with
          visible_extent :=
            ⟨⟨addInt ext.start_.x delta, ext.start_.y, ext.start_.z⟩,
              ⟨addInt ext.end_.x delta, ext.end_.y, ext.end_.z⟩⟩ },
        left.2)
  else left

/-- The branch of `MapTool::MouseMove` for a node that is a `MapSlab`. -/
def moveMapSlab (event : MouseEvent) (ms : MapSlab) : MapSlab :=
  if event.buttons = .LeftButton then
    if event.shift then
      { ms with plane := .originMoved ms.plane event.delta.x event.delta.y }
    else
      { ms with plane := .normalRotated ms.plane event.delta.x event.delta.y }
  else ms

/-- The body of the loop of `MapTool::MouseMove` for one active node. -/
def moveNode (unproject : QPoint → QPoint → Point) (event : MouseEvent) (np : GfxNodeP) :
    GfxNodeP × List String :=
  match np with
  | none => (none, [])
  | some node =>
    match asMapIso (some node) with
    | some mi =>
      let r := moveMapIso unproject event mi
      (some (.MapIso r.1), r.2)
    | none =>
      match asMapSlab (some node) with
      | some ms => (some (.MapSlab (moveMapSlab event ms)), [])
      | none => (some node, [])

/-- `MapTool::MouseMove` on the active nodes of the scene selection, node `i`
being `GetActiveNode(i)`: the nodes afterwards and the status messages sent. -/
def MouseMove (unproject : QPoint → QPoint → Point) (event : MouseEvent) :
    List GfxNodeP → List GfxNodeP × List String
  | [] => ([], [])
  | np :: rest =>
    let r := moveNode unproject event np
    let rs := MouseMove unproject event rest
    (r.1 :: rs.1, r.2 ++ rs.2)

/-- The loop of `MapTool::CanOperateOn`: `false` at the first node that is not
a `MapIso`, `true` when the nodes run out. -/
def allMapIso : List GfxNodeP → Bool
  | [] => true
  | np :: rest => if (asMapIso np).isNone then false else allMapIso rest

/-- `MapTool::CanOperateOn`. -/
def CanOperateOn (nodes : List GfxNodeP) : Bool :=
  if nodes.length = 1 then allMapIso nodes else false

/-- `TryLoadMap` shows no message box. -/
theorem TryLoadMap_messageBoxes (env : Env) (filename : String) (w : World) :
    (TryLoadMap env filename w).2.messageBoxes = w.messageBoxes := by
  unfold TryLoadMap
  split
  · split
    · rfl
    · split
      · rfl
      · split <;> rfl
  · rfl

/-- `TryLoadMap` does not touch the scene. -/
theorem TryLoadMap_scene (env : Env) (filename : String) (w : World) :
    (TryLoadMap env filename w).2.scene = w.scene := by
  unfold TryLoadMap
  split
  · split
    · rfl
    · split
      · rfl
      · split <;> rfl
  · rfl

/-- A `TryLoadMap` that raises leaves the state as it found it. -/
theorem TryLoadMap_error_state (env : Env) (filename : String) (w : World) (e : IOException)
    (h : (TryLoadMap env filename w).1 = .error e) : (TryLoadMap env filename w).2 = w := by
  unfold TryLoadMap at h ⊢
  by_cases hi : env.OST_IMG_ENABLED = true
  · simp only [hi, if_true] at h ⊢
    cases hm : env.LoadMap filename with
    | error e2 => rfl
    | ok map =>
      rw [hm] at h
      by_cases h1 : map.depth > 1
      · simp [h1] at h
      · by_cases h2 : map.depth = 1 <;> simp [h1, h2] at h
  · simp [hi]

/-- The box of `HandleError` is never the "no suitable io handler" box: the
titles differ. -/
theorem handleErrorBox_ne_noHandlerBox (m : Message) : handleErrorBox m ≠ noHandlerBox := by
  intro h
  have ht : (handleErrorBox m).title = noHandlerBox.title := by rw [h]
  revert ht
  simp [handleErrorBox, noHandlerBox]

/-- `HandleError` shows exactly its own box. -/
theorem HandleError_messageBoxes (env : Env) (m : Message) (obj : GfxObj) (w : World) :
    (HandleError env m obj w).2.messageBoxes = w.messageBoxes ++ [handleErrorBox m] := by
  unfold HandleError
  dsimp only
  split
  · split <;> rfl
  · rfl

/-- Centring the scene shows no message box. -/
theorem centerIfOnly_messageBoxes (obj : GfxObj) (w : World) :
    (centerIfOnly obj w).messageBoxes = w.messageBoxes := by
  unfold centerIfOnly
  split <;> rfl

/-- Adding an object to the scene shows no box, or the one box of
`HandleError`. -/
theorem addToScene_messageBoxes (env : Env) (obj : GfxObj) (w : World) :
    (addToScene env obj w).2.messageBoxes = w.messageBoxes ∨
      ∃ m, (addToScene env obj w).2.messageBoxes = w.messageBoxes ++ [handleErrorBox m] := by
  unfold addToScene
  split
  · left
    simp [centerIfOnly_messageBoxes]
  · rename_i m _
    right
    refine ⟨m, ?_⟩
    have hb := HandleError_messageBoxes env m obj w
    split
    · rename_i w1 hw
      rw [hw] at hb
      simpa [centerIfOnly_messageBoxes] using hb
    · rename_i m2 w1 hw
      rw [hw] at hb
      simpa using hb

/-- Adding an object to the scene never shows the "no suitable io handler"
box. -/
theorem addToScene_not_shows_noHandlerBox (env : Env) (obj : GfxObj) (w0 w : World)
    (hw : w.messageBoxes = w0.messageBoxes) :
    noHandlerBox ∉ shownBy w0 (addToScene env obj w).2 := by
  unfold shownBy
  rcases addToScene_messageBoxes env obj w with h | ⟨m, h⟩
  · rw [h, hw]
    simp
  · rw [h, hw]
    simp only [List.drop_left, List.mem_singleton]
    exact fun hc => handleErrorBox_ne_noHandlerBox m hc.symm

/-- C9: when `io::LoadMap` raises an `io::IOException`, `FileLoader::TryLoadMap`
raises that same exception to its caller, returns no object, and leaves
`loaded_images_` (indeed the whole state) unchanged. `io::LoadMap` is called
only in a build with `OST_IMG_ENABLED`, which is the first hypothesis. -/
theorem TryLoadMap_raises_LoadMap_exception (env : Env) (filename : String) (w : World)
    (e : IOException) (himg : env.OST_IMG_ENABLED = true)
    (hload : env.LoadMap filename = .error e) :
    (TryLoadMap env filename w).1 = .error e ∧
      (∀ obj : GfxObjP, (TryLoadMap env filename w).1 ≠ .ok obj) ∧
      (TryLoadMap env filename w).2.loaded_images_ = w.loaded_images_ ∧
      (TryLoadMap env filename w).2 = w := by
  have h : TryLoadMap env filename w = (.error e, w) := by
    unfold TryLoadMap
    simp [himg, hload]
  rw [h]
  simp

/-- C9 at `broken.mrc`, a map that `sampleEnv` fails to load. -/
theorem TryLoadMap_raises_LoadMap_exception_witness :
    sampleEnv.LoadMap "broken.mrc" = .error ⟨"truncated payload"⟩ ∧
      (TryLoadMap sampleEnv "broken.mrc" emptyWorld).1 = .error ⟨"truncated payload"⟩ ∧
      (TryLoadMap sampleEnv "broken.mrc" emptyWorld).2.loaded_images_ = [] :=
  have h := TryLoadMap_raises_LoadMap_exception sampleEnv "broken.mrc" emptyWorld
    ⟨"truncated payload"⟩ rfl rfl
  ⟨rfl, h.1, h.2.2.1⟩

/-- C10: for a file name ending (case-insensitively) in none of `.py`, `.pdb`,
`.ent`, `.pdb.gz`, `.ent.gz`, `FileLoader::LoadObject` shows the
"Could not Open file. No suitable io handler found!" warning if and only if the
entity loader returns no object, the map loader raises an `IOException` and the
surface loader returns no object; and in that case the call returns normally
with the state unchanged but for that one box, so nothing is added to the
scene. -/
theorem LoadObject_shows_warning_iff (env : Env) (file_name : String) (w : World)
    (hpy : endsWithCI file_name ".py" = false)
    (hpdb : endsWithCI file_name ".pdb" = false)
    (hent : endsWithCI file_name ".ent" = false)
    (hpdbgz : endsWithCI file_name ".pdb.gz" = false)
    (hentgz : endsWithCI file_name ".ent.gz" = false) :
    (noHandlerBox ∈ shownBy w (LoadObject env file_name w).2 ↔
      (TryLoadEntity env file_name = none ∧
        (∃ e, (TryLoadMap env file_name w).1 = .error e) ∧
        TryLoadSurface env file_name = none)) ∧
    ((TryLoadEntity env file_name = none ∧
        (∃ e, (TryLoadMap env file_name w).1 = .error e) ∧
        TryLoadSurface env file_name = none) →
      LoadObject env file_name w =
          (.ok (), { w with messageBoxes := w.messageBoxes ++ [noHandlerBox] }) ∧
        (LoadObject env file_name w).2.scene = w.scene) := by
  have hL : LoadObject env file_name w =
      match TryLoadEntity env file_name with
      | some o => finishLoad env (some o) w
      | none =>
        match TryLoadMap env file_name w with
        | (.ok (some o), w1) => finishLoad env (some o) w1
        | (.ok none, w1) => (.ok (), w1)
        | (.error _, w1) => finishLoad env (TryLoadSurface env file_name) w1 := by
    unfold LoadObject
    simp [hpy, hpdb, hent, hpdbgz, hentgz]
  rw [hL]
  cases hE : TryLoadEntity env file_name with
  | some o =>
    simp only [finishLoad]
    refine ⟨⟨fun h => ?_, fun h => ?_⟩, fun h => ?_⟩
    · exact absurd h (addToScene_not_shows_noHandlerBox env o w w rfl)
    · simp at h
    · simp at h
  | none =>
    have hmb := TryLoadMap_messageBoxes env file_name w
    have hst := TryLoadMap_error_state env file_name w
    rcases hM : TryLoadMap env file_name w with ⟨r, w1⟩
    rw [hM] at hmb hst
    simp only at hmb hst
    cases r with
    | ok obj =>
      cases obj with
      | some o =>
        simp only [finishLoad]
        refine ⟨⟨fun h => ?_, fun h => ?_⟩, fun h => ?_⟩
        · exact absurd h (addToScene_not_shows_noHandlerBox env o w w1 hmb)
        · simp at h
        · simp at h
      | none =>
        refine ⟨⟨fun h => ?_, fun h => ?_⟩, fun h => ?_⟩
        · simp [shownBy, hmb] at h
        · simp at h
        · simp at h
    | error e =>
      have hw1 : w1 = w := hst e rfl
      subst hw1
      cases hS : TryLoadSurface env file_name with
      | some o =>
        simp only [finishLoad]
        refine ⟨⟨fun h => ?_, fun h => ?_⟩, fun h => ?_⟩
        · exact absurd h (addToScene_not_shows_noHandlerBox env o w1 w1 rfl)
        · simp at h
        · simp at h
      | none =>
        simp [finishLoad, shownBy]

/-- C10 at `broken.XYZ`, a file that no loader of `sampleEnv` can read. -/
theorem LoadObject_shows_warning_iff_witness :
    noHandlerBox ∈ shownBy emptyWorld (LoadObject sampleEnv "broken.XYZ" emptyWorld).2 ∧
      (LoadObject sampleEnv "broken.XYZ" emptyWorld).2.scene = [] :=
  have h := LoadObject_shows_warning_iff sampleEnv "broken.XYZ" emptyWorld
    (by decide) (by decide) (by decide) (by decide) (by decide)
  have hc : TryLoadEntity sampleEnv "broken.XYZ" = none ∧
      (∃ e, (TryLoadMap sampleEnv "broken.XYZ" emptyWorld).1 = .error e) ∧
      TryLoadSurface sampleEnv "broken.XYZ" = none :=
    ⟨by decide, ⟨⟨"truncated payload"⟩, rfl⟩, by decide⟩
  ⟨h.1.2 hc, (h.2 hc).2⟩

end gui

namespace io

/-! ## Properties of the descriptors, the handler and the codec model -/

/-- C3: endianness resolution on import. An explicit override is the result
whatever the stamp is; with no override, a stamp matching exactly one of the
big-endian and little-endian patterns gives that order; with no override, a
stamp matching neither pattern or both fails with `AmbiguousEndianness`. -/
theorem resolveEndianness_rule (patterns : StampPatterns) (stamp : List Byte) :
    (∀ e : Endianess, resolveEndianness patterns stamp (some e) = .ok e) ∧
    (stamp = patterns.big → stamp ≠ patterns.little →
      resolveEndianness patterns stamp none = .ok .big) ∧
    (stamp ≠ patterns.big → stamp = patterns.little →
      resolveEndianness patterns stamp none = .ok .little) ∧
    (stamp ≠ patterns.big → stamp ≠ patterns.little →
      resolveEndianness patterns stamp none = .error .AmbiguousEndianness) ∧
    (stamp = patterns.big → stamp = patterns.little →
      resolveEndianness patterns stamp none = .error .AmbiguousEndianness) := by
  refine ⟨fun e => rfl, fun hb hl => ?_, fun hb hl => ?_, fun hb hl => ?_, fun hb hl => ?_⟩
  · simp only [resolveEndianness, decide_eq_true hb, decide_eq_false hl]
  · simp only [resolveEndianness, decide_eq_false hb, decide_eq_true hl]
  · simp only [resolveEndianness, decide_eq_false hb, decide_eq_false hl]
  · simp only [resolveEndianness, decide_eq_true hb, decide_eq_true hl]

/-- A first content match is the result of `Resolve`. -/
theorem Resolve_of_find_content (registry : List Codec) (path : String) (sniff : List Byte)
    (c : Codec) (h : registry.find? (fun d => d.MatchContent sniff) = some c) :
    Resolve registry path sniff = .ok c := by
  simp only [Resolve, h]

/-- With no content match, `Resolve` is decided by the suffix matchers. -/
theorem Resolve_of_no_content (registry : List Codec) (path : String) (sniff : List Byte)
    (h : ∀ c ∈ registry, c.MatchContent sniff = false) :
    Resolve registry path sniff =
      match registry.find? (fun c => c.MatchSuffix path) with
      | some c => .ok c
      | none => .error .UnrecognizedFormat := by
  have hnone : registry.find? (fun d => d.MatchContent sniff) = none := by
    rw [List.find?_eq_none]
    intro x hx
    simp [h x hx]
  simp only [Resolve, hnone]

/-- C5: format resolution gives content precedence over suffix. Whenever the
sniff bytes are accepted by a codec's `MatchContent`, `Resolve` succeeds with a
registered codec whose `MatchContent` accepts them, the same one whatever the
path is, and with that very codec when it is the only one that accepts; the
result is then also unchanged when the `MatchSuffix` predicates of the registry
are replaced by any others, so `MatchSuffix` decides only when no
`MatchContent` accepts, and the codec chosen then is one whose `MatchSuffix`
accepts the path; and `Resolve` fails, with `UnrecognizedFormat`, exactly when
no `MatchContent` and no `MatchSuffix` accepts. -/
theorem Resolve_content_precedence (registry : List Codec) (path : String)
    (sniff : List Byte) :
    (∀ c ∈ registry, c.MatchContent sniff = true →
      (∃ chosen ∈ registry, chosen.MatchContent sniff = true ∧
        ∀ other_path, Resolve registry other_path sniff = .ok chosen) ∧
      ((∀ d ∈ registry, d.MatchContent sniff = true → d = c) →
        ∀ other_path, Resolve registry other_path sniff = .ok c)) ∧
    ((∃ c ∈ registry, c.MatchContent sniff = true) →
      ∀ suffixes : Codec → String → Bool,
        Resolve (registry.map (fun c => { c with MatchSuffix := suffixes c })) path sniff =
          (Resolve registry path sniff).map (fun c => { c with MatchSuffix := suffixes c })) ∧
    ((∀ c ∈ registry, c.MatchContent sniff = false) →
      ∀ chosen, Resolve registry path sniff = .ok chosen →
        chosen ∈ registry ∧ chosen.MatchSuffix path = true) ∧
    (Resolve registry path sniff = .error .UnrecognizedFormat ↔
      ∀ c ∈ registry, c.MatchContent sniff = false ∧ c.MatchSuffix path = false) ∧
    (∀ e, Resolve registry path sniff = .error e → e = .UnrecognizedFormat) := by
  have hfound : ∀ c ∈ registry, c.MatchContent sniff = true →
      ∃ chosen, registry.find? (fun d => d.MatchContent sniff) = some chosen := by
    intro c hc hacc
    cases hf : registry.find? (fun d => d.MatchContent sniff) with
    | none =>
      rw [List.find?_eq_none] at hf
      exact absurd hacc (by simpa using hf c hc)
    | some chosen => exact ⟨chosen, rfl⟩
  refine ⟨?_, ?_, ?_, ?_, ?_⟩
  · intro c hc hacc
    obtain ⟨chosen, hf⟩ := hfound c hc hacc
    have hin : chosen ∈ registry := List.mem_of_find?_eq_some hf
    have hch : chosen.MatchContent sniff = true := by simpa using List.find?_some hf
    refine ⟨⟨chosen, hin, hch, fun other_path =>
      Resolve_of_find_content registry other_path sniff chosen hf⟩, ?_⟩
    intro honly other_path
    rw [← honly chosen hin hch]
    exact Resolve_of_find_content registry other_path sniff chosen hf
  · rintro ⟨c, hc, hacc⟩ suffixes
    obtain ⟨chosen, hf⟩ := hfound c hc hacc
    rw [Resolve_of_find_content registry path sniff chosen hf]
    apply Resolve_of_find_content
    rw [List.find?_map]
    have hcomp : ((fun d : Codec => d.MatchContent sniff) ∘
        fun c : Codec => { c with MatchSuffix := suffixes c }) =
        fun d : Codec => d.MatchContent sniff := rfl
    rw [hcomp, hf]
    rfl
  · intro hno chosen hres
    rw [Resolve_of_no_content registry path sniff hno] at hres
    cases hs : registry.find? (fun c => c.MatchSuffix path) with
    | none =>
      rw [hs] at hres
      cases hres
    | some c =>
      rw [hs] at hres
      cases hres
      exact ⟨List.mem_of_find?_eq_some hs, by simpa using List.find?_some hs⟩
  · cases hf : registry.find? (fun d => d.MatchContent sniff) with
    | some first =>
      rw [Resolve_of_find_content registry path sniff first hf]
      constructor
      · intro h
        cases h
      · intro h
        have hin : first ∈ registry := List.mem_of_find?_eq_some hf
        have hacc : first.MatchContent sniff = true := by simpa using List.find?_some hf
        rw [(h first hin).1] at hacc
        cases hacc
    | none =>
      have hno : ∀ c ∈ registry, c.MatchContent sniff = false := by
        rw [List.find?_eq_none] at hf
        intro c hc
        simpa using hf c hc
      rw [Resolve_of_no_content registry path sniff hno]
      cases hs : registry.find? (fun c => c.MatchSuffix path) with
      | some c =>
        constructor
        · intro h
          cases h
        · intro h
          have hin : c ∈ registry := List.mem_of_find?_eq_some hs
          have hacc : c.MatchSuffix path = true := by simpa using List.find?_some hs
          rw [(h c hin).2] at hacc
          cases hacc
      | none =>
        rw [List.find?_eq_none] at hs
        simp only [true_iff]
        intro c hc
        exact ⟨hno c hc, by simpa using hs c hc⟩
  · intro e he
    unfold Resolve at he
    split at he
    · cases he
    · split at he
      · cases he
      · cases he
        rfl

/-- C6: the header record `MapIOMrcHandler` handles is exactly 256 bytes (the
buffer `header_` has length 256 in every state of the handler), and in a file
laid out as header record, extended header, payload, the voxel data block
begins at byte offset 256 + extended-header size. -/
theorem header_record_256_and_data_offset {UnitCell Size : Type}
    (h : MapIOMrcHandler UnitCell Size) (header : CharArray256)
    (extended payload : List Byte) :
    h.header_.bytes.length = 256 ∧
    (fileLayout header extended payload).take 256 = header.bytes ∧
    ((fileLayout header extended payload).drop 256).take extended.length = extended ∧
    dataBlock extended.length (fileLayout header extended payload) = payload ∧
    (fileLayout header extended payload).drop (256 + extended.length) = payload := by
  have hlen : header.bytes.length = 256 := header.size_eq
  have hdrop : (fileLayout header extended payload).drop (256 + extended.length) = payload := by
    unfold fileLayout
    have hl : (header.bytes ++ extended).length = 256 + extended.length := by
      simp [hlen]
    rw [← hl]
    exact List.drop_left _ _
  refine ⟨h.header_.size_eq, ?_, ?_, hdrop, hdrop⟩
  · unfold fileLayout
    rw [List.append_assoc, ← hlen]
    exact List.take_left _ _
  · unfold fileLayout
    rw [List.append_assoc, ← hlen, List.drop_left]
    exact List.take_left _ _

/-- C8: the MRC format descriptor is a bundle of exactly three settings. Built
with no arguments it reports `normalize_on_save = false`,
`subformat = MRC_AUTO_FORMAT` and `endianness = OST_LOCAL_ENDIAN`; a CCP4
descriptor built with no arguments reports `normalize_on_save = false` and
`endianness = OST_LOCAL_ENDIAN`; each setter makes its getter return the
argument and leaves the other two getters unchanged; and two descriptors that
agree on the three getters are the same descriptor. -/
theorem MRC_descriptor_settings :
    (MRC.new.GetNormalizeOnSave = false ∧
      MRC.new.GetSubformat = Subformat.MRC_AUTO_FORMAT ∧
      MRC.new.GetEndianessOnSave = Endianess.OST_LOCAL_ENDIAN) ∧
    (∀ base : Subformat, (CCP4.new base).GetNormalizeOnSave = false ∧
      (CCP4.new base).GetEndianessOnSave = Endianess.OST_LOCAL_ENDIAN) ∧
    (∀ (d : MRC) (e : Endianess),
      (d.SetEndianessOnSave e).GetEndianessOnSave = e ∧
      (d.SetEndianessOnSave e).GetNormalizeOnSave = d.GetNormalizeOnSave ∧
      (d.SetEndianessOnSave e).GetSubformat = d.GetSubformat) ∧
    (∀ (d : MRC) (b : Bool),
      (d.SetNormalizeOnSave b).GetNormalizeOnSave = b ∧
      (d.SetNormalizeOnSave b).GetEndianessOnSave = d.GetEndianessOnSave ∧
      (d.SetNormalizeOnSave b).GetSubformat = d.GetSubformat) ∧
    (∀ (d : MRC) (f : Subformat),
      (d.SetSubformat f).GetSubformat = f ∧
      (d.SetSubformat f).GetNormalizeOnSave = d.GetNormalizeOnSave ∧
      (d.SetSubformat f).GetEndianessOnSave = d.GetEndianessOnSave) ∧
    (∀ d1 d2 : MRC, d1.GetSubformat = d2.GetSubformat →
      d1.GetEndianessOnSave = d2.GetEndianessOnSave →
      d1.GetNormalizeOnSave = d2.GetNormalizeOnSave → d1 = d2) := by
  refine ⟨⟨rfl, rfl, rfl⟩, fun _ => ⟨rfl, rfl⟩, fun _ _ => ⟨rfl, rfl, rfl⟩,
    fun _ _ => ⟨rfl, rfl, rfl⟩, fun _ _ => ⟨rfl, rfl, rfl⟩, ?_⟩
  intro d1 d2 hs he hn
  cases d1
  cases d2
  simp only [MRC.GetSubformat, MRC.GetEndianessOnSave, MRC.GetNormalizeOnSave] at hs he hn
  subst hs he hn
  rfl

end io

namespace gui

/-! ## Further properties of `FileLoader` -/

/-- C11: when map loading succeeds, `FileLoader::TryLoadMap` returns normally,
and the object it returns is non-empty if and only if the loaded map's depth
is greater than 1 (it is then the `MapIso` of that map, and the state,
`loaded_images_` included, is unchanged); when the depth is exactly 1 it
returns the empty object and appends the image to `loaded_images_`, whose
length grows by exactly one with the loaded image as its last element. -/
theorem TryLoadMap_success_result (env : Env) (filename : String) (w : World)
    (map : ImageHandle) (himg : env.OST_IMG_ENABLED = true)
    (hload : env.LoadMap filename = .ok map) :
    (∃ obj : GfxObjP, (TryLoadMap env filename w).1 = .ok obj ∧
      (obj.isSome = true ↔ map.depth > 1)) ∧
    (map.depth > 1 →
      (TryLoadMap env filename w).1 =
          .ok (some (.MapIso (env.baseName filename) map .mean)) ∧
        (TryLoadMap env filename w).2 = w ∧
        (TryLoadMap env filename w).2.loaded_images_ = w.loaded_images_) ∧
    (map.depth = 1 →
      (TryLoadMap env filename w).1 = .ok none ∧
        (TryLoadMap env filename w).2.loaded_images_ = w.loaded_images_ ++ [map] ∧
        (TryLoadMap env filename w).2.loaded_images_.length = w.loaded_images_.length + 1 ∧
        (TryLoadMap env filename w).2.loaded_images_.getLast? = some map) := by
  by_cases h1 : map.depth > 1
  · have h : TryLoadMap env filename w =
        (.ok (some (.MapIso (env.baseName filename) map .mean)), w) := by
      unfold TryLoadMap
      simp [himg, hload, h1]
    rw [h]
    refine ⟨⟨_, rfl, by simp [h1]⟩, fun _ => ⟨rfl, rfl, rfl⟩, fun h2 => ?_⟩
    omega
  · by_cases h2 : map.depth = 1
    · have h : TryLoadMap env filename w =
          (.ok none,
            { w with
              loaded_images_ := w.loaded_images_ ++ [map]
              widgets := w.widgets ++ [(filename, map)] }) := by
        unfold TryLoadMap
        simp [himg, hload, h2]
      rw [h]
      refine ⟨⟨_, rfl, by simp [h1]⟩, fun h3 => absurd h3 h1, fun _ => ⟨rfl, rfl, ?_, ?_⟩⟩
      · simp
      · simp
    · have h : TryLoadMap env filename w = (.ok none, w) := by
        unfold TryLoadMap
        simp [himg, hload, h1, h2]
      rw [h]
      exact ⟨⟨_, rfl, by simp [h1]⟩, fun h3 => absurd h3 h1, fun h3 => absurd h3 h2⟩

/-- C11 at `img.mrc`, the image of depth 1 of `sampleEnv`: the empty object is
returned and the image is the one element of `loaded_images_`. -/
theorem TryLoadMap_success_result_witness :
    (TryLoadMap sampleEnv "img.mrc" emptyWorld).1 = .ok none ∧
      (TryLoadMap sampleEnv "img.mrc" emptyWorld).2.loaded_images_ = [⟨2, 1⟩] :=
  have h := TryLoadMap_success_result sampleEnv "img.mrc" emptyWorld ⟨2, 1⟩ rfl rfl
  ⟨(h.2.2 rfl).1, (h.2.2 rfl).2.1⟩

/-- The generic branch of `LoadObject`, reached by a file name with none of the
five suffixes. -/
theorem LoadObject_generic (env : Env) (file_name : String) (w : World)
    (hpy : endsWithCI file_name ".py" = false) (hpdb : endsWithCI file_name ".pdb" = false)
    (hent : endsWithCI file_name ".ent" = false)
    (hpdbgz : endsWithCI file_name ".pdb.gz" = false)
    (hentgz : endsWithCI file_name ".ent.gz" = false) :
    LoadObject env file_name w =
      match TryLoadEntity env file_name with
      | some o => finishLoad env (some o) w
      | none =>
        match TryLoadMap env file_name w with
        | (.ok (some o), w1) => finishLoad env (some o) w1
        | (.ok none, w1) => (.ok (), w1)
        | (.error _, w1) => finishLoad env (TryLoadSurface env file_name) w1 := by
  unfold LoadObject
  simp [hpy, hpdb, hent, hpdbgz, hentgz]

/-- The generic branch of `LoadObjectTraced`. -/
theorem LoadObjectTraced_generic (env : Env) (file_name : String) (w : World)
    (hpy : endsWithCI file_name ".py" = false) (hpdb : endsWithCI file_name ".pdb" = false)
    (hent : endsWithCI file_name ".ent" = false)
    (hpdbgz : endsWithCI file_name ".pdb.gz" = false)
    (hentgz : endsWithCI file_name ".ent.gz" = false) :
    LoadObjectTraced env file_name w =
      match TryLoadEntity env file_name with
      | some o => (finishLoad env (some o) w, [.TryLoadEntity])
      | none =>
        match TryLoadMap env file_name w with
        | (.ok (some o), w1) => (finishLoad env (some o) w1, [.TryLoadEntity, .TryLoadMap])
        | (.ok none, w1) => ((.ok (), w1), [.TryLoadEntity, .TryLoadMap])
        | (.error _, w1) =>
          (finishLoad env (TryLoadSurface env file_name) w1,
            [.TryLoadEntity, .TryLoadMap, .TryLoadSurface]) := by
  unfold LoadObjectTraced
  simp only [hpy, hpdb, hent, hpdbgz, hentgz, Bool.or_self, Bool.false_eq_true, if_false,
    TryLoadEntityLogged, TryLoadMapLogged, TryLoadSurfaceLogged, List.nil_append,
    List.cons_append]

/-- Dropping the log of `LoadObjectTraced` gives `LoadObject`. -/
theorem LoadObjectTraced_result (env : Env) (file_name : String) (w : World) :
    (LoadObjectTraced env file_name w).1 = LoadObject env file_name w := by
  unfold LoadObjectTraced LoadObject
  split
  · rfl
  · split
    · rfl
    · simp only [TryLoadEntityLogged, TryLoadMapLogged, TryLoadSurfaceLogged]
      split
      · rfl
      · split <;> rfl

/-- C15: `FileLoader::LoadObject` takes exactly one route, chosen by the suffix
of the file name compared without regard to case. A name ending in `.py` is
run as a script: the result is that of `RunScript` and it is the only call.
Otherwise a name ending in `.pdb`, `.ent`, `.pdb.gz` or `.ent.gz` goes through
`LoadPDB`: the result is that of `LoadPDB` and it is the only call. Only
otherwise are the generic loaders tried, in the order entity, map, surface. An
object from `TryLoadEntity` is the one handed on, in the state `LoadObject`
was entered with, and nothing else is called; with no entity object,
`TryLoadMap` is called next, an object from it is the one handed on, an empty
pointer from it ends `LoadObject`, and only when it raised is `TryLoadSurface`
called and its result handed on. So `TryLoadMap` is called exactly when
`TryLoadEntity` produced no object, and `TryLoadSurface` exactly when moreover
`TryLoadMap` raised. -/
theorem LoadObject_routes (env : Env) (file_name : String) (w : World) :
    (LoadObjectTraced env file_name w).1 = LoadObject env file_name w ∧
    (endsWithCI file_name ".py" = true →
      (LoadObjectTraced env file_name w).2 = [.RunScript] ∧
        LoadObject env file_name w = (.ok (), RunScript env file_name w)) ∧
    (endsWithCI file_name ".py" = false →
      (endsWithCI file_name ".pdb" = true ∨ endsWithCI file_name ".ent" = true ∨
        endsWithCI file_name ".pdb.gz" = true ∨ endsWithCI file_name ".ent.gz" = true) →
      (LoadObjectTraced env file_name w).2 = [.LoadPDB] ∧
        LoadObject env file_name w = LoadPDB env file_name w) ∧
    (endsWithCI file_name ".py" = false → endsWithCI file_name ".pdb" = false →
      endsWithCI file_name ".ent" = false → endsWithCI file_name ".pdb.gz" = false →
      endsWithCI file_name ".ent.gz" = false →
      (∀ o : GfxObj, TryLoadEntity env file_name = some o →
        (LoadObjectTraced env file_name w).2 = [.TryLoadEntity] ∧
          LoadObject env file_name w = finishLoad env (some o) w) ∧
      (TryLoadEntity env file_name = none →
        (∀ (o : GfxObj) (w1 : World), TryLoadMap env file_name w = (.ok (some o), w1) →
          (LoadObjectTraced env file_name w).2 = [.TryLoadEntity, .TryLoadMap] ∧
            LoadObject env file_name w = finishLoad env (some o) w1) ∧
        (∀ w1 : World, TryLoadMap env file_name w = (.ok none, w1) →
          (LoadObjectTraced env file_name w).2 = [.TryLoadEntity, .TryLoadMap] ∧
            LoadObject env file_name w = (.ok (), w1)) ∧
        (∀ (e : IOException) (w1 : World), TryLoadMap env file_name w = (.error e, w1) →
          (LoadObjectTraced env file_name w).2 =
              [.TryLoadEntity, .TryLoadMap, .TryLoadSurface] ∧
            LoadObject env file_name w =
              finishLoad env (TryLoadSurface env file_name) w1)) ∧
      (Call.TryLoadMap ∈ (LoadObjectTraced env file_name w).2 ↔
        TryLoadEntity env file_name = none) ∧
      (Call.TryLoadSurface ∈ (LoadObjectTraced env file_name w).2 ↔
        (TryLoadEntity env file_name = none ∧
          ∃ e, (TryLoadMap env file_name w).1 = .error e))) := by
  refine ⟨LoadObjectTraced_result env file_name w, ?_, ?_, ?_⟩
  · intro hpy
    unfold LoadObjectTraced LoadObject
    simp [hpy, RunScriptLogged]
  · intro hpy hpdb
    have hor : (endsWithCI file_name ".pdb" || endsWithCI file_name ".ent" ||
        endsWithCI file_name ".pdb.gz" || endsWithCI file_name ".ent.gz") = true := by
      rcases hpdb with h | h | h | h <;> simp [h]
    unfold LoadObjectTraced LoadObject
    simp only [hpy, hor, if_true]
    simp [LoadPDBLogged]
  · intro hpy hpdb hent hpdbgz hentgz
    rw [LoadObjectTraced_generic env file_name w hpy hpdb hent hpdbgz hentgz,
      LoadObject_generic env file_name w hpy hpdb hent hpdbgz hentgz]
    cases hE : TryLoadEntity env file_name with
    | some o => simp
    | none =>
      rcases hM : TryLoadMap env file_name w with ⟨r, w1⟩
      cases r with
      | error e => simp
      | ok obj =>
        cases obj with
        | some o => simp
        | none => simp

/-- The loop of `LoadPDB` is `Scene::Add` called in order on the numbered
objects. -/
theorem addNumbered_eq_addInOrder (env : Env) (base : String) (entities : List EntityHandle) :
    ∀ (i : Nat) (scene : List GfxObj),
      addNumbered env base i entities scene =
        addInOrder env (numberedEntities base i entities) scene := by
  induction entities with
  | nil => intro i scene; rfl
  | cons ent rest ih =>
    intro i scene
    simp only [addNumbered, numberedEntities, addInOrder, numberedName]
    split
    · exact ih _ _
    · rfl

/-- Object number `j` of the numbered objects is entity number `j` under the
name with that number. -/
theorem numberedEntities_getElem? (base : String) (entities : List EntityHandle) :
    ∀ (i j : Nat), (numberedEntities base i entities)[j]? =
      entities[j]?.map (fun ent => GfxObj.Entity (numberedName base (i + j)) ent) := by
  induction entities with
  | nil => intro i j; simp [numberedEntities]
  | cons ent rest ih =>
    intro i j
    cases j with
    | zero => simp [numberedEntities]
    | succ j =>
      simp only [numberedEntities, List.getElem?_cons_succ, ih]
      congr 1
      funext e
      congr 2
      omega

/-- The numbered objects of a list that continues after an entity. -/
theorem numberedEntities_append (base : String) (earlier : List EntityHandle)
    (ent : EntityHandle) (later : List EntityHandle) :
    ∀ i : Nat, numberedEntities base i (earlier ++ ent :: later) =
      numberedEntities base i earlier ++
        GfxObj.Entity (numberedName base (i + earlier.length)) ent ::
          numberedEntities base (i + earlier.length + 1) later := by
  induction earlier with
  | nil => intro i; simp [numberedEntities]
  | cons e rest ih =>
    intro i
    have h1 : i + 1 + rest.length = i + (rest.length + 1) := by omega
    rw [List.cons_append, numberedEntities, numberedEntities, ih (i + 1), List.length_cons, h1,
      List.cons_append]

/-- The names of the numbered objects are the numbered names of a run of
consecutive numbers. -/
theorem numberedEntities_names (base : String) (entities : List EntityHandle) :
    ∀ i : Nat, (numberedEntities base i entities).map GfxObj.GetName =
      (List.range' i entities.length).map (numberedName base) := by
  induction entities with
  | nil => intro i; rfl
  | cons ent rest ih =>
    intro i
    simp [numberedEntities, GfxObj.GetName, List.range', ih]

/-- A digit character has the value of the digit it writes. -/
theorem digitValue_digitChar (d : Nat) (h : d < 10) : digitValue (Nat.digitChar d) = d := by
  interval_cases d <;> rfl

/-- The digits produced for a number go in front of the digits already there. -/
theorem toDigitsCore_append (fuel : Nat) : ∀ (n : Nat) (ds : List Char),
    Nat.toDigitsCore 10 fuel n ds = Nat.toDigitsCore 10 fuel n [] ++ ds := by
  induction fuel with
  | zero => intro n ds; simp [Nat.toDigitsCore]
  | succ fuel ih =>
    intro n ds
    simp only [Nat.toDigitsCore]
    split
    · simp
    · rw [ih (n / 10) (Nat.digitChar (n % 10) :: ds), ih (n / 10) [Nat.digitChar (n % 10)]]
      simp

/-- One more digit at the end multiplies the value by ten and adds the digit. -/
theorem decimalValue_append_single (l : List Char) (c : Char) :
    decimalValue (l ++ [c]) = 10 * decimalValue l + digitValue c := by
  simp [decimalValue, List.foldl_append]

/-- The digits produced for a number write that number. -/
theorem decimalValue_toDigitsCore (fuel : Nat) : ∀ n : Nat, n < fuel →
    decimalValue (Nat.toDigitsCore 10 fuel n []) = n := by
  induction fuel with
  | zero => intro n h; omega
  | succ fuel ih =>
    intro n h
    simp only [Nat.toDigitsCore]
    split
    · have hlt : n < 10 := by
        by_contra hc
        have : 0 < n / 10 := Nat.div_pos (by omega) (by omega)
        omega
      have hmod : n % 10 = n := Nat.mod_eq_of_lt hlt
      simp [decimalValue, hmod, digitValue_digitChar n hlt]
    · rw [toDigitsCore_append, decimalValue_append_single,
        ih (n / 10) (by omega), digitValue_digitChar _ (Nat.mod_lt _ (by omega))]
      omega

/-- Reading back the decimal text of a number gives the number. -/
theorem decimalValue_toString (n : Nat) : decimalValue (toString n).toList = n := by
  show decimalValue (Nat.repr n).toList = n
  simp only [Nat.repr, Nat.toDigits, List.asString]
  exact decimalValue_toDigitsCore (n + 1) n (by omega)

/-- Different numbers give different numbered names. -/
theorem numberedName_injective (base : String) : Function.Injective (numberedName base) := by
  intro i j h
  have h2 := congrArg String.data h
  simp only [numberedName, String.data_append, List.append_assoc] at h2
  have h3 := List.append_cancel_right (List.append_cancel_left (List.append_cancel_left h2))
  have h4 : toString i = toString j := String.ext h3
  rw [← decimalValue_toString i, ← decimalValue_toString j, h4]

/-- When the objects before one are added and the add of that one throws, the
run ends there, in the scene the earlier adds left. -/
theorem addInOrder_stops (env : Env) (obj : GfxObj) (later : List GfxObj) (m : Message) :
    ∀ (earlier : List GfxObj) (scene scene_i : List GfxObj),
      addInOrder env earlier scene = (.ok (), scene_i) →
      env.SceneAdd scene_i obj = .error m →
      addInOrder env (earlier ++ obj :: later) scene = (.error m, scene_i) := by
  intro earlier
  induction earlier with
  | nil =>
    intro scene scene_i h hadd
    simp only [addInOrder, Prod.mk.injEq, true_and] at h
    subst h
    simp [addInOrder, hadd]
  | cons o rest ih =>
    intro scene scene_i h hadd
    simp only [List.cons_append, addInOrder] at h ⊢
    cases hs : env.SceneAdd scene o with
    | ok scene2 =>
      rw [hs] at h
      simp only at h ⊢
      exact ih scene2 scene_i h hadd
    | error m2 =>
      rw [hs] at h
      simp at h

/-- With no entity or with several, `LoadPDB` runs the numbering loop. -/
theorem LoadPDB_several (env : Env) (filename : String) (w : World)
    (h : ((env.pdbEntities filename).map env.ConnectAll).length ≠ 1) :
    LoadPDB env filename w =
      match addInOrder env
          (numberedEntities (env.baseName filename) 0
            ((env.pdbEntities filename).map env.ConnectAll)) w.scene with
      | (.ok (), scene) => (.ok (), { w with scene := scene })
      | (.error m, scene) =>
        (.ok (), { w with scene := scene, messageBoxes := w.messageBoxes ++ [addNodesErrorBox m] }) := by
  unfold LoadPDB
  simp only [← addNumbered_eq_addInOrder]
  split
  · rename_i ent heq
    rw [heq] at h
    simp at h
  · rfl

/-- C16: `FileLoader::LoadPDB` names the objects it creates from the base name
`b` of the file. When the reader yields exactly one entity, the object offered
to the scene is named `b`. When it yields `n ≠ 1` entities, the objects offered
to the scene, in reading order, are entity `i` under the name `b + " (i)"` for
`i = 0 .. n-1`; these names are pairwise distinct; and if adding entity `i`
throws, the scene is left as the adds of entities `0 .. i-1` made it, the
error box is shown, and no later entity is added. -/
theorem LoadPDB_names (env : Env) (filename : String) (w : World) :
    (∀ ent : EntityHandle, (env.pdbEntities filename).map env.ConnectAll = [ent] →
      LoadPDB env filename w = addToScene env (.Entity (env.baseName filename) ent) w ∧
        (GfxObj.Entity (env.baseName filename) ent).GetName = env.baseName filename) ∧
    (((env.pdbEntities filename).map env.ConnectAll).length ≠ 1 →
      (LoadPDB env filename w).2.scene =
          (addInOrder env
            (numberedEntities (env.baseName filename) 0
              ((env.pdbEntities filename).map env.ConnectAll)) w.scene).2 ∧
      (∀ i : Nat,
        (numberedEntities (env.baseName filename) 0
            ((env.pdbEntities filename).map env.ConnectAll))[i]? =
          ((env.pdbEntities filename).map env.ConnectAll)[i]?.map
            (fun ent => GfxObj.Entity (env.baseName filename ++ " (" ++ toString i ++ ")") ent)) ∧
      ((numberedEntities (env.baseName filename) 0
          ((env.pdbEntities filename).map env.ConnectAll)).map GfxObj.GetName).Nodup ∧
      (∀ (earlier : List EntityHandle) (ent : EntityHandle) (later : List EntityHandle)
          (scene_i : List GfxObj) (m : Message),
        (env.pdbEntities filename).map env.ConnectAll = earlier ++ ent :: later →
        addInOrder env (numberedEntities (env.baseName filename) 0 earlier) w.scene =
          (.ok (), scene_i) →
        env.SceneAdd scene_i
            (.Entity (env.baseName filename ++ " (" ++ toString earlier.length ++ ")") ent) =
          .error m →
        LoadPDB env filename w =
          (.ok (),
            { w with
              scene := scene_i
              messageBoxes := w.messageBoxes ++ [addNodesErrorBox m] }))) := by
  refine ⟨fun ent h => ⟨?_, rfl⟩, fun hn => ⟨?_, ?_, ?_, ?_⟩⟩
  · unfold LoadPDB
    simp only [h]
  · rw [LoadPDB_several env filename w hn]
    split <;> rename_i heq <;> rw [heq]
  · intro i
    rw [numberedEntities_getElem?]
    simp [numberedName]
  · rw [numberedEntities_names]
    exact (List.nodup_range' _ _).map (numberedName_injective _)
  · intro earlier ent later scene_i m hsplit hok hadd
    rw [LoadPDB_several env filename w hn, hsplit, numberedEntities_append]
    have hstop := addInOrder_stops env
      (.Entity (numberedName (env.baseName filename) (0 + earlier.length)) ent)
      (numberedEntities (env.baseName filename) (0 + earlier.length + 1) later) m
      (numberedEntities (env.baseName filename) 0 earlier) w.scene scene_i hok
      (by simpa [numberedName] using hadd)
    rw [hstop]

/-! ## Properties of `MapTool` -/

/-- C12: `MapTool::CanOperateOn(nodes)` returns true if and only if `nodes`
holds exactly one node and that node is a `MapIso`; it returns false for the
empty list, for every list of two or more nodes (whatever they are), and for a
single `MapSlab`, although `MouseMove` with the left button down does act on an
active `MapSlab`: it sets the slab's plane. -/
theorem CanOperateOn_iff_single_MapIso (nodes : List GfxNodeP) :
    (CanOperateOn nodes = true ↔ ∃ mi : MapIso, nodes = [some (.MapIso mi)]) ∧
    CanOperateOn [] = false ∧
    (2 ≤ nodes.length → CanOperateOn nodes = false) ∧
    (∀ ms : MapSlab, CanOperateOn [some (.MapSlab ms)] = false) ∧
    (∀ (unproject : QPoint → QPoint → Point) (event : MouseEvent) (ms : MapSlab),
      event.buttons = .LeftButton →
      MouseMove unproject event [some (.MapSlab ms)] =
        ([some (.MapSlab
            { plane :=
                if event.shift then .originMoved ms.plane event.delta.x event.delta.y
                else .normalRotated ms.plane event.delta.x event.delta.y })], [])) := by
  refine ⟨?_, rfl, ?_, fun _ => rfl, ?_⟩
  · constructor
    · intro h
      unfold CanOperateOn at h
      match nodes, h with
      | [np], h =>
        match np, h with
        | some (.MapIso mi), _ => exact ⟨mi, rfl⟩
        | some (.MapSlab _), h => simp [allMapIso, asMapIso] at h
        | some (.Other _), h => simp [allMapIso, asMapIso] at h
        | none, h => simp [allMapIso, asMapIso] at h
      | [], h => simp at h
      | _ :: _ :: _, h => simp at h
    · rintro ⟨mi, rfl⟩
      rfl
  · intro h
    unfold CanOperateOn
    have : nodes.length ≠ 1 := by omega
    simp [this]
  · intro unproject event ms hb
    by_cases hs : event.shift = true <;>
      simp [MouseMove, moveNode, asMapIso, asMapSlab, moveMapSlab, hb, hs]

end gui

namespace gfx

/-! ## Properties of the Python bindings of `Entity` -/

/-- C13, as the code has it: the Python property `tube_options` is registered
with the accessor `ent_sline_opts`, so it returns the options of render mode
SLINE, not those of TUBE that `ent_tube_opts` returns; on `sampleEntity` the
two differ. Every other render-options property returns the options of the
mode its name denotes. -/
theorem tube_options_returns_sline_options :
    (∀ ent : Entity, getProperty "tube_options" ent = some (ent_sline_opts ent)) ∧
    (∀ ent : Entity, getProperty "tube_options" ent = some (ent.GetOptions .SLINE)) ∧
    getProperty "tube_options" sampleEntity = some (some 0) ∧
    ent_tube_opts sampleEntity = some 4 ∧
    denotedMode "tube_options" = some .TUBE ∧
    (∀ (name : String) (mode : RenderMode), denotedMode name = some mode →
      name ≠ "tube_options" → ∀ ent : Entity, getProperty name ent = some (ent.GetOptions mode)) := by
  refine ⟨fun _ => rfl, fun _ => rfl, rfl, rfl, rfl, ?_⟩
  intro name mode hmode hne ent
  unfold denotedMode at hmode
  split at hmode
  · cases hmode; rfl
  · cases hmode; rfl
  · exact absurd rfl hne
  · cases hmode; rfl
  · cases hmode; rfl
  · cases hmode; rfl
  · cases hmode; rfl
  · cases hmode

end gfx

end ost
